import Mathlib

/-!
Shallow embedding of the access-control and validation core of the
`alx-polling` application (source: `src/app/lib/actions/poll-actions.ts` and
`src/app/lib/actions/auth-actions.ts`).

JavaScript strings are modelled as `List Char` (`Str`); the opaque relational
store (Supabase) is modelled as an explicit in-memory state (`DB`), with each
operation taking extra `Option Str` parameters that inject the outcome of the
fallible store / identity-oracle calls the original code performs (`none` =
the call succeeds, `some msg` = the call fails and `msg` is the raw error
text the store produced).  `.single()` queries follow the supabase-js
semantics: data is returned iff the filter matches exactly one row, any other
cardinality is reported as an error.
-/

set_option maxHeartbeats 1000000
set_option maxRecDepth 100000

namespace AlxPolling

/-- JavaScript strings, modelled as lists of characters. -/
abbrev Str := List Char

/-- Whitespace recognised by `String.prototype.trim`. -/
def jsWhitespace (c : Char) : Bool := c.isWhitespace

/-- `s.trim()`: drop leading and trailing whitespace. -/
def jsTrim (s : Str) : Str :=
  ((s.dropWhile jsWhitespace).reverse.dropWhile jsWhitespace).reverse

/-- `s.toLowerCase()` (ASCII-adequate model). -/
def jsToLower (s : Str) : Str := s.map Char.toLower

/-- `str.replace(/[<>]/g, "")`: remove every angle-bracket character. -/
def removeAngle (s : Str) : Str := s.filter (fun c => !(c = '<' || c = '>'))

/-- `sanitizeString` from poll-actions.ts: `str.trim().replace(/[<>]/g, "")`. -/
def sanitizeString (s : Str) : Str := removeAngle (jsTrim s)

/-! ### Basic lemmas about the string primitives -/

theorem dropWhile_head_false {p : Char → Bool} :
    ∀ l : Str, (∀ c, l.head? = some c → p c = false) → l.dropWhile p = l := by
  intro l h
  cases l with
  | nil => rfl
  | cons c t =>
    have : p c = false := h c rfl
    simp [List.dropWhile, this]

theorem head_dropWhile_false {p : Char → Bool} :
    ∀ (l : Str) (c : Char), (l.dropWhile p).head? = some c → p c = false := by
  intro l
  induction l with
  | nil => intro c h; simp [List.dropWhile] at h
  | cons a t ih =>
    intro c h
    by_cases hp : p a
    · exact ih c (by simpa [List.dropWhile, hp] using h)
    · simp [List.dropWhile, hp] at h
      subst h
      simpa using hp

/-- `jsTrim` is idempotent. -/
theorem jsTrim_idem (s : Str) : jsTrim (jsTrim s) = jsTrim s := by
  unfold jsTrim
  set d := s.dropWhile jsWhitespace with hd
  set e := d.reverse.dropWhile jsWhitespace with he
  -- Step 1: the front of `e.reverse` is the front of `d` (when nonempty),
  -- and `d` starts with a non-whitespace character.
  have hfront : (e.reverse.dropWhile jsWhitespace) = e.reverse := by
    apply dropWhile_head_false
    intro c hc
    -- `e` is a suffix of `d.reverse`, so `e.reverse` is a prefix of `d`.
    have hsuff : e <:+ d.reverse := by
      rw [he]; exact List.dropWhile_suffix jsWhitespace
    obtain ⟨pre, hpre⟩ := hsuff
    have hrev : e.reverse.head? = some c := hc
    -- head of `e.reverse` = head of `d` since `e.reverse ++ pre.reverse = d`… reversed:
    have hD : d = e.reverse ++ pre.reverse := by
      have := congrArg List.reverse hpre
      simpa [List.reverse_append] using this.symm
    have hdhead : d.head? = some c := by
      rw [hD]
      cases herev : e.reverse with
      | nil => simp [herev] at hrev
      | cons x xs =>
        simp [herev] at hrev ⊢
        exact hrev
    exact head_dropWhile_false s c (by rw [← hd]; exact hdhead)
  rw [hfront]
  have hback : (e.dropWhile jsWhitespace) = e := by
    apply dropWhile_head_false
    intro c hc
    exact head_dropWhile_false d.reverse c (by rw [← he]; exact hc)
  rw [List.reverse_reverse, hback]

/-- Characters surviving `removeAngle` are exactly those of `s` that are not
angle brackets; in particular the output never contains `<` or `>`. -/
theorem removeAngle_no_angle (s : Str) :
    ∀ c ∈ removeAngle s, c ≠ '<' ∧ c ≠ '>' := by
  intro c hc
  unfold removeAngle at hc
  have := List.of_mem_filter hc
  constructor <;> (intro h; subst h; simp at this)

theorem removeAngle_eq_self {s : Str} (h : ∀ c ∈ s, c ≠ '<' ∧ c ≠ '>') :
    removeAngle s = s := by
  unfold removeAngle
  apply List.filter_eq_self.2
  intro c hc
  have := h c hc
  simp [this.1, this.2]

/-- Membership is preserved downward by `jsTrim` (it only drops characters). -/
theorem mem_of_mem_jsTrim {c : Char} {s : Str} (h : c ∈ jsTrim s) : c ∈ s := by
  unfold jsTrim at h
  have h1 := List.mem_reverse.1 h
  have h2 := (List.dropWhile_sublist (l := (s.dropWhile jsWhitespace).reverse)
    (p := jsWhitespace)).mem h1
  have h3 := List.mem_reverse.1 h2
  exact (List.dropWhile_sublist (l := s) (p := jsWhitespace)).mem h3

theorem sanitize_no_angle (s : Str) :
    ∀ c ∈ sanitizeString s, c ≠ '<' ∧ c ≠ '>' :=
  fun c hc => removeAngle_no_angle (jsTrim s) c hc

theorem sanitize_sanitize (s : Str) :
    sanitizeString (sanitizeString s) = jsTrim (sanitizeString s) := by
  show removeAngle (jsTrim (sanitizeString s)) = jsTrim (sanitizeString s)
  exact removeAngle_eq_self (fun c hc => sanitize_no_angle s c (mem_of_mem_jsTrim hc))

theorem sanitize_eq_trim_of_no_angle {s : Str} (h : ∀ c ∈ s, c ≠ '<' ∧ c ≠ '>') :
    sanitizeString s = jsTrim s := by
  show removeAngle (jsTrim s) = jsTrim s
  exact removeAngle_eq_self (fun c hc => h c (mem_of_mem_jsTrim hc))

/-! ### Rate limiter (auth-actions.ts)

The process-wide `rateLimitMap` (a JS `Map`) is modelled as an association
list with unique keys; `isRateLimited` becomes explicit state passing, taking
the current map and `Date.now()` and returning the limited flag together with
the updated map. -/

/-- One entry of `rateLimitMap`: `{ attempts, lastAttempt }`. -/
structure RateRecord where
  attempts : Nat
  lastAttempt : Nat
deriving DecidableEq, Repr

/-- The in-memory rate-limit map. -/
abbrev RateMap := List (Str × RateRecord)

/-- `Map.get`. -/
def lookupR : RateMap → Str → Option RateRecord
  | [], _ => none
  | (k', v) :: rest, k => if k' = k then some v else lookupR rest k

/-- `Map.set`: replace the entry if the key is present, append otherwise. -/
def insertR : RateMap → Str → RateRecord → RateMap
  | [], k, v => [(k, v)]
  | (k', v') :: rest, k, v =>
    if k' = k then (k, v) :: rest else (k', v') :: insertR rest k v

/-- `Map.delete`. -/
def eraseR : RateMap → Str → RateMap
  | [], _ => []
  | (k', v') :: rest, k =>
    if k' = k then eraseR rest k else (k', v') :: eraseR rest k

/-- `getRateLimitKey(email, action)` = `` `${action}:${email.toLowerCase()}` ``. -/
def getRateLimitKey (email action : Str) : Str :=
  action ++ ':' :: jsToLower email

/-- `isRateLimited(email, action, maxAttempts, windowMs)` from auth-actions.ts,
with the map and the clock made explicit.  Mirrors the source: missing record
or elapsed window insert `{attempts: 1, lastAttempt: now}` and report not
limited; otherwise the attempt count is incremented, the timestamp updated,
and the (post-increment) count compared against `maxAttempts`.  `now -
record.lastAttempt > windowMs` uses truncated subtraction, which agrees with
the JS comparison for every `windowMs ≥ 0`. -/
def isRateLimited (email action : Str) (maxAttempts windowMs : Nat)
    (now : Nat) (m : RateMap) : Bool × RateMap :=
  let key := getRateLimitKey email action
  match lookupR m key with
  | none => (false, insertR m key ⟨1, now⟩)
  | some r =>
    if windowMs < now - r.lastAttempt then
      (false, insertR m key ⟨1, now⟩)
    else
      (decide (maxAttempts < r.attempts + 1), insertR m key ⟨r.attempts + 1, now⟩)

/-- Run a sequence of `isRateLimited` calls (same key and policy) at the given
timestamps, collecting the limited flags. -/
def rlRun (email action : Str) (maxAttempts windowMs : Nat) :
    List Nat → RateMap → List Bool × RateMap
  | [], m => ([], m)
  | t :: ts, m =>
    let r := isRateLimited email action maxAttempts windowMs t m
    let rest := rlRun email action maxAttempts windowMs ts r.2
    (r.1 :: rest.1, rest.2)

theorem lookupR_insertR_self (m : RateMap) (k : Str) (v : RateRecord) :
    lookupR (insertR m k v) k = some v := by
  induction m with
  | nil => simp [insertR, lookupR]
  | cons hd tl ih =>
    obtain ⟨k', v'⟩ := hd
    by_cases h : k' = k
    · simp [insertR, h, lookupR]
    · simp [insertR, h, lookupR, ih]

theorem lookupR_eraseR_self (m : RateMap) (k : Str) :
    lookupR (eraseR m k) k = none := by
  induction m with
  | nil => simp [eraseR, lookupR]
  | cons hd tl ih =>
    obtain ⟨k', v'⟩ := hd
    by_cases h : k' = k
    · simp [eraseR, h, ih]
    · simp [eraseR, h, lookupR, ih]

/-! ### Auth validators (auth-actions.ts)

The source regexes are written with doubled backslashes inside regex
literals, so `\\s` denotes the two-character sequence backslash-`s` (a
literal backslash or the letter `s` inside a character class), not the
whitespace class, and `\\d` denotes backslash followed by the letter `d`.
The embeddings below follow those literal semantics. -/

/-- A character matched by the class `[^\\s@]` of the source's email regex:
anything except a backslash, the letter `s`, and `@`. -/
def isEmailAtom (c : Char) : Bool := !(c = '\\' || c = 's' || c = '@')

/-- A character matched by `.` in a JS regex (no `s` flag): anything except
the four line terminators. -/
def jsDotMatch (c : Char) : Bool :=
  !(c = '\n' || c = '\r' || c = Char.ofNat 0x2028 || c = Char.ofNat 0x2029)

/-- Split a list at the first occurrence of `c` (the part before, the part
after), or `none` when `c` does not occur. -/
def splitAtFirst (c : Char) : Str → Option (Str × Str)
  | [] => none
  | x :: xs =>
    if x = c then some ([], xs)
    else (splitAtFirst c xs).map (fun p => (x :: p.1, p.2))

/-- `/^[^\\s@]+@[^\\s@]+\\.[^\\s@]+$/.test s`.  Because the character class
excludes both `@` and the backslash, the pattern's `@` necessarily matches
the first `@` of the string and its `\\` the first backslash after that `@`,
so the match is deterministic: local part (nonempty, atoms) `@` middle part
(nonempty, atoms) backslash, one `.`-matchable character, tail (nonempty,
atoms). -/
def emailRegexTest (s : Str) : Bool :=
  match splitAtFirst '@' s with
  | none => false
  | some (loc, rest) =>
    !loc.isEmpty && loc.all isEmailAtom &&
    (match splitAtFirst '\\' rest with
     | none => false
     | some (mid, rest2) =>
       !mid.isEmpty && mid.all isEmailAtom &&
       (match rest2 with
        | [] => false
        | c :: t => jsDotMatch c && !t.isEmpty && t.all isEmailAtom))

def msgEmailRequired : Str := "Email is required.".toList
def msgEmailTooLong : Str := "Email is too long.".toList
def msgEmailInvalid : Str := "Please enter a valid email address.".toList

/-- `validateEmail` from auth-actions.ts. -/
def validateEmail (email : Str) : Option Str :=
  if email = [] then some msgEmailRequired
  else
    let trimmedEmail := jsToLower (jsTrim email)
    if trimmedEmail.length = 0 then some msgEmailRequired
    else if 254 < trimmedEmail.length then some msgEmailTooLong
    else if emailRegexTest trimmedEmail then none
    else some msgEmailInvalid

/-- `hay.includes-as-substring needle` (used for the `.*needle` lookaheads and
for `error.message.includes(...)`). -/
def containsSub (hay needle : Str) : Bool :=
  match hay with
  | [] => needle.isEmpty
  | _ :: tl => needle.isPrefixOf hay || containsSub tl needle

def msgPasswordRequired : Str := "Password is required.".toList
def msgPasswordShort : Str := "Password must be at least 8 characters long.".toList
def msgPasswordLong : Str := "Password is too long.".toList
def msgPasswordLetterNumber : Str :=
  "Password must contain at least one letter and one number.".toList

/-- `validatePassword` from auth-actions.ts.  The test
`/(?=.*[a-zA-Z])(?=.*\\d)/.test p` succeeds iff the password contains an
ASCII letter somewhere and the two-character sequence backslash-`d`
somewhere (both lookaheads are satisfiable from position 0 exactly in that
case, and `test` succeeds iff any position matches). -/
def validatePassword (password : Str) : Option Str :=
  if password = [] then some msgPasswordRequired
  else if password.length < 8 then some msgPasswordShort
  else if 128 < password.length then some msgPasswordLong
  else if password.any Char.isAlpha && containsSub password ['\\', 'd'] then none
  else some msgPasswordLetterNumber

def msgNameRequired : Str := "Name is required.".toList
def msgNameLong : Str := "Name must be less than 100 characters.".toList
def msgNameChars : Str :=
  "Name can only contain letters, spaces, hyphens, and apostrophes.".toList

/-- The apostrophe character (U+0027). -/
def apostropheChar : Char := Char.ofNat 39

/-- A character of the class `[a-zA-Z\\s'-]` from the source's name regex:
ASCII letters, a literal backslash, the letter `s`, an apostrophe, a
hyphen.  (Because of the doubled backslash this class does not contain the
space character.) -/
def isNameChar (c : Char) : Bool :=
  c.isAlpha || c = '\\' || c = apostropheChar || c = '-'

/-- `validateName` from auth-actions.ts. -/
def validateName (name : Str) : Option Str :=
  if name = [] then some msgNameRequired
  else
    let trimmedName := jsTrim name
    if trimmedName.length = 0 then some msgNameRequired
    else if 100 < trimmedName.length then some msgNameLong
    else if trimmedName.all isNameChar then none
    else some msgNameChars

/-! ### Poll input validation and sanitization (poll-actions.ts) -/

def msgQuestionRequired : Str := "Question is required.".toList
def msgQuestionEmpty : Str := "Question cannot be empty.".toList
def msgQuestionTooLong : Str := "Question must be less than 500 characters.".toList
def msgOptsAtLeastTwo : Str := "At least two options are required.".toList
def msgOptsMax : Str := "Maximum of 10 options allowed.".toList
def msgOptsNonEmpty : Str := "At least two non-empty options are required.".toList
def msgOptTooLong : Str := "Each option must be less than 200 characters.".toList

/-- The question-part of `validatePollInput`.  `question` is `none` when
`formData.get("question")` returned `null`; the empty string is also falsy in
the `!question` test. -/
def questionErrors (question : Option Str) : List Str :=
  match question with
  | none => [msgQuestionRequired]
  | some q =>
    if q = [] then [msgQuestionRequired]
    else
      let trimmedQuestion := jsTrim q
      if trimmedQuestion.length = 0 then [msgQuestionEmpty]
      else if 500 < trimmedQuestion.length then [msgQuestionTooLong]
      else []

/-- The options-part of `validatePollInput` (the argument is always an array
in the embedding, so the `Array.isArray` test reduces to the length test). -/
def optionErrors (options : List Str) : List Str :=
  if options.length < 2 then [msgOptsAtLeastTwo]
  else if 10 < options.length then [msgOptsMax]
  else
    let validOptions := options.filter (fun o => 0 < (jsTrim o).length)
    let e1 := if validOptions.length < 2 then [msgOptsNonEmpty] else []
    let e2 :=
      if 0 < (validOptions.filter (fun o => 200 < (jsTrim o).length)).length
      then [msgOptTooLong] else []
    e1 ++ e2

/-- `validatePollInput(question, options)`: the `errors` array receives the
question messages first, then the option messages. -/
def validatePollInput (question : Option Str) (options : List Str) : List Str :=
  questionErrors question ++ optionErrors options

/-! ### Data model: the external relational store -/

/-- A row of the `polls` table (fields not consulted by the embedded
operations, such as `created_at`, are omitted). -/
structure Poll where
  id : Str
  user_id : Str
  question : Str
  options : List Str
deriving DecidableEq, Repr

/-- A row of the `votes` table.  `user_id` is `none` for anonymous votes and
`option_index` is an arbitrary integer (the store itself does not constrain
it). -/
structure Vote where
  poll_id : Str
  user_id : Option Str
  option_index : Int
deriving DecidableEq, Repr

/-- The store state. -/
structure DB where
  polls : List Poll
  votes : List Vote
deriving DecidableEq, Repr

/-- `.single()`: data iff the filtered result has exactly one row. -/
def singleRow {α : Type} : List α → Option α
  | [a] => some a
  | _ => none

def msgAuthRequired : Str := "Authentication required.".toList
def msgInvalidPollId : Str := "Invalid poll ID.".toList
def msgPollNotFound : Str := "Poll not found.".toList
def msgPollDenied : Str := "Poll not found or access denied.".toList
def msgInvalidOption : Str := "Invalid option selected.".toList
def msgAlreadyVoted : Str := "You have already voted on this poll.".toList
def msgVoteFailed : Str := "Failed to submit vote.".toList
def msgDeleteAuth : Str := "Authentication required to delete polls.".toList
def msgDeleteFailed : Str :=
  "Failed to delete poll. You can only delete your own polls.".toList
def msgUpdateAuth : Str := "Authentication required to update polls.".toList
def msgUpdateFailed : Str :=
  "Failed to update poll. You can only update your own polls.".toList
def msgVoteDataFailed : Str := "Failed to load vote data.".toList
def msgMustLogin : Str := "You must be logged in to create a poll.".toList
def msgNotAuthenticated : Str := "Not authenticated".toList
def msgTooManyLogins : Str :=
  "Too many login attempts. Please try again in 15 minutes.".toList
def msgTooManyRegs : Str :=
  "Too many registration attempts. Please try again in 1 hour.".toList
def msgInvalidCreds : Str := "Invalid email or password.".toList
def msgEmailExists : Str := "An account with this email already exists.".toList
def msgRegFailed : Str := "Registration failed. Please try again.".toList

/-! ### Poll operations (poll-actions.ts)

Boundary inputs: `auth` is the identity-oracle result (`none` = no session
user); the `…Err` parameters inject the outcome of each fallible external
call the source performs, carrying the raw error message on failure. -/

/-- `getPollById(id)`. -/
def getPollById (db : DB) (selectErr : Option Str) (id : Str) :
    Option Poll × Option Str :=
  if id = [] || (jsTrim id).length = 0 then (none, some msgInvalidPollId)
  else
    match selectErr with
    | some _ => (none, some msgPollNotFound)
    | none =>
      match singleRow (db.polls.filter (fun p => p.id = jsTrim id)) with
      | some p => (some p, none)
      | none => (none, some msgPollNotFound)

/-- `getPollByIdWithOwnership(id)`: the query filters by both the poll id and
the authenticated user's id, and every failed lookup is reported with the
same merged message. -/
def getPollByIdWithOwnership (db : DB) (auth : Option Str) (authErr : Bool)
    (selectErr : Option Str) (id : Str) : Option Poll × Option Str :=
  match auth, authErr with
  | none, _ => (none, some msgAuthRequired)
  | some _, true => (none, some msgAuthRequired)
  | some uid, false =>
    if id = [] || (jsTrim id).length = 0 then (none, some msgInvalidPollId)
    else
      match selectErr with
      | some _ => (none, some msgPollDenied)
      | none =>
        match singleRow (db.polls.filter
            (fun p => p.id = jsTrim id ∧ p.user_id = uid)) with
        | some p => (some p, none)
        | none => (none, some msgPollDenied)

/-- `submitVote(pollId, optionIndex)`.  The duplicate-vote check runs only
when a session user exists; its `.single()` result is `existingVote`, and the
query's own error is ignored by the source.  The inserted row carries
`user_id: user?.id ?? null`. -/
def submitVote (db : DB) (auth : Option Str) (pollSelectErr insertErr : Option Str)
    (pollId : Str) (optionIndex : Int) : Option Str × DB :=
  if pollId = [] || (jsTrim pollId).length = 0 then (some msgInvalidPollId, db)
  else if optionIndex < 0 then (some msgInvalidOption, db)
  else
    match (getPollById db pollSelectErr (jsTrim pollId)).1 with
    | none => (some msgPollNotFound, db)
    | some poll =>
      if (poll.options.length : Int) ≤ optionIndex then (some msgInvalidOption, db)
      else
        let existingVote : Option Vote :=
          match auth with
          | none => none
          | some uid =>
            singleRow (db.votes.filter
              (fun v => v.poll_id = jsTrim pollId ∧ v.user_id = some uid))
        match existingVote with
        | some _ => (some msgAlreadyVoted, db)
        | none =>
          match insertErr with
          | some _ => (some msgVoteFailed, db)
          | none =>
            (none, { db with
              votes := db.votes ++ [⟨jsTrim pollId, auth, optionIndex⟩] })

/-- `deletePoll(id)`: the delete is scoped to `id AND user_id = caller`; the
source does not trim `id` here.  A store failure leaves the rows in place. -/
def deletePoll (db : DB) (auth : Option Str) (authErr : Bool)
    (deleteErr : Option Str) (id : Str) : Option Str × DB :=
  match auth, authErr with
  | none, _ => (some msgDeleteAuth, db)
  | some _, true => (some msgDeleteAuth, db)
  | some uid, false =>
    match deleteErr with
    | some _ => (some msgDeleteFailed, db)
    | none =>
      (none, { db with
        polls := db.polls.filter (fun p => ¬(p.id = id ∧ p.user_id = uid)) })

/-- `updatePoll(pollId, formData)`: validation, sanitization, then an update
scoped to `id AND user_id = caller`.  `options0` is the raw
`formData.getAll("options")` list, filtered by `Boolean` as in the source. -/
def updatePoll (db : DB) (auth : Option Str) (authErr : Bool)
    (updateErr : Option Str) (pollId : Str) (question : Option Str)
    (options0 : List Str) : Option Str × DB :=
  if pollId = [] || (jsTrim pollId).length = 0 then (some msgInvalidPollId, db)
  else
    let options := options0.filter (fun o => ¬o = [])
    let validationErrors := validatePollInput question options
    if ¬validationErrors = [] then
      (some (List.intercalate [' '] validationErrors), db)
    else
      let sanitizedQuestion := sanitizeString (question.getD [])
      let sanitizedOptions := options.map sanitizeString
      match auth, authErr with
      | none, _ => (some msgUpdateAuth, db)
      | some _, true => (some msgUpdateAuth, db)
      | some uid, false =>
        match updateErr with
        | some _ => (some msgUpdateFailed, db)
        | none =>
          (none, { db with
            polls := db.polls.map (fun p =>
              if p.id = jsTrim pollId ∧ p.user_id = uid then
                { p with question := sanitizedQuestion, options := sanitizedOptions }
              else p) })

/-- `createPoll(formData)`: validation and sanitization happen before the
identity-oracle call; on oracle failure or insert failure the raw
`error.message` is returned.  `newId` stands for the id the store generates
for the inserted row. -/
def createPoll (db : DB) (auth : Option Str) (authErr : Option Str)
    (insertErr : Option Str) (newId : Str) (question : Option Str)
    (options0 : List Str) : Option Str × DB :=
  let options := options0.filter (fun o => ¬o = [])
  let validationErrors := validatePollInput question options
  if ¬validationErrors = [] then
    (some (List.intercalate [' '] validationErrors), db)
  else
    let sanitizedQuestion := sanitizeString (question.getD [])
    let sanitizedOptions := options.map sanitizeString
    match authErr with
    | some msg => (some msg, db)
    | none =>
      match auth with
      | none => (some msgMustLogin, db)
      | some uid =>
        match insertErr with
        | some msg => (some msg, db)
        | none =>
          (none, { db with
            polls := db.polls ++ [⟨newId, uid, sanitizedQuestion, sanitizedOptions⟩] })

/-- `getUserPolls()`: on store failure the raw `error.message` is returned. -/
def getUserPolls (db : DB) (auth : Option Str) (selectErr : Option Str) :
    List Poll × Option Str :=
  match auth with
  | none => ([], some msgNotAuthenticated)
  | some uid =>
    match selectErr with
    | some msg => ([], some msg)
    | none => (db.polls.filter (fun p => p.user_id = uid), none)

/-- One iteration of the `votes?.forEach` loop of `getVoteCounts`: increment
slot `option_index` when it lies inside `[0, n)`. -/
def tallyStep (n : Nat) (acc : List Nat) (v : Vote) : List Nat :=
  if 0 ≤ v.option_index ∧ v.option_index < (n : Int) then
    acc.set v.option_index.toNat (acc.getD v.option_index.toNat 0 + 1)
  else acc

/-- `new Array(n).fill(0)` followed by the `forEach` counting loop. -/
def tallyVotes (n : Nat) (votes : List Vote) : List Nat :=
  votes.foldl (tallyStep n) (List.replicate n 0)

/-- `getVoteCounts(pollId)`: select the votes of the poll, fetch the poll via
`getPollById` (whose own store outcome is `pollSelectErr`), then count. -/
def getVoteCounts (db : DB) (votesSelectErr pollSelectErr : Option Str)
    (pollId : Str) : List Nat × Option Str :=
  if pollId = [] || (jsTrim pollId).length = 0 then ([], some msgInvalidPollId)
  else
    match votesSelectErr with
    | some _ => ([], some msgVoteDataFailed)
    | none =>
      let votes := db.votes.filter (fun v => v.poll_id = jsTrim pollId)
      match (getPollById db pollSelectErr (jsTrim pollId)).1 with
      | none => ([], some msgPollNotFound)
      | some poll => (tallyVotes poll.options.length votes, none)

/-! ### Auth operations (auth-actions.ts) -/

/-- `login(data)`: validate email then password, consult the rate limiter
(5 attempts / 15 minutes) on the normalized email, then call the identity
oracle; its failure (raw message `signInErr`) is replaced by the fixed
generic message, and success clears the rate-limit record. -/
def login (m : RateMap) (now : Nat) (signInErr : Option Str)
    (email password : Str) : Option Str × RateMap :=
  match validateEmail email with
  | some e => (some e, m)
  | none =>
    match validatePassword password with
    | some e => (some e, m)
    | none =>
      let email' := jsToLower (jsTrim email)
      let r := isRateLimited email' "login".toList 5 (15 * 60 * 1000) now m
      if r.1 then (some msgTooManyLogins, r.2)
      else
        match signInErr with
        | some _ => (some msgInvalidCreds, r.2)
        | none => (none, eraseR r.2 (getRateLimitKey email' "login".toList))

/-- `register(data)`: validate name, email, password, consult the rate
limiter (3 attempts / 1 hour), then call the identity oracle; its failure is
mapped to one of two fixed messages depending on whether the raw message
contains "already registered". -/
def register (m : RateMap) (now : Nat) (signUpErr : Option Str)
    (name email password : Str) : Option Str × RateMap :=
  match validateName name with
  | some e => (some e, m)
  | none =>
    match validateEmail email with
    | some e => (some e, m)
    | none =>
      match validatePassword password with
      | some e => (some e, m)
      | none =>
        let email' := jsToLower (jsTrim email)
        let r := isRateLimited email' "register".toList 3 (60 * 60 * 1000) now m
        if r.1 then (some msgTooManyRegs, r.2)
        else
          match signUpErr with
          | some raw =>
            if containsSub raw "already registered".toList then
              (some msgEmailExists, r.2)
            else (some msgRegFailed, r.2)
          | none => (none, eraseR r.2 (getRateLimitKey email' "register".toList))

/-- Iterate `submitVote` as an unauthenticated caller `k` times (store calls
succeeding), collecting the per-call results. -/
def anonRun (k : Nat) (db : DB) (pollId : Str) (optionIndex : Int) :
    List (Option Str) × DB :=
  match k with
  | 0 => ([], db)
  | k + 1 =>
    let r := submitVote db none none none pollId optionIndex
    let rest := anonRun k r.2 pollId optionIndex
    (r.1 :: rest.1, rest.2)

/-! ### Concrete fixtures used by witnesses and counterexamples -/

/-- A store holding one poll owned by `alice`. -/
def dbAlice : DB :=
  ⟨[⟨"p1".toList, "alice".toList, "Q?".toList, ["A".toList, "B".toList]⟩], []⟩

/-- The empty store. -/
def dbEmpty : DB := ⟨[], []⟩

/-- A store where the poll `p1` is owned by `carol`. -/
def dbCarol : DB :=
  ⟨[⟨"p1".toList, "carol".toList, "Q?".toList, ["A".toList, "B".toList]⟩], []⟩

/-- A store where `bob` has already voted on `alice`'s poll. -/
def dbVoted : DB :=
  ⟨[⟨"p1".toList, "alice".toList, "Q?".toList, ["A".toList, "B".toList]⟩],
   [⟨"p1".toList, some "bob".toList, 0⟩]⟩

/-- `alice`'s poll with three recorded votes at option indices 0, 1, 0. -/
def dbTally : DB :=
  ⟨[⟨"p1".toList, "alice".toList, "Q?".toList, ["A".toList, "B".toList]⟩],
   [⟨"p1".toList, none, 0⟩, ⟨"p1".toList, none, 1⟩, ⟨"p1".toList, none, 0⟩]⟩

/-! ### Claim theorems -/

/-- C1: the spec says `validateEmail` accepts every string of the simple
shape `local@domain.tld`, but the source's regex literal
`/^[^\\s@]+@[^\\s@]+\\.[^\\s@]+$/` doubles the backslashes, so it demands a
literal backslash (and excludes the letter `s`): the perfectly well-formed
address `user@example.com` is rejected, while the backslash-carrying
`a@b\.cd` is accepted.  This evaluates the embedded code at the failing
input. -/
theorem validateEmail_rejects_wellformed_address :
    validateEmail "user@example.com".toList = some msgEmailInvalid ∧
    validateEmail "a@b\\.cd".toList = none := by decide

/-- C8 counterexample: the sanitizer is not idempotent.  On `"< a"`, trimming
does nothing (the string starts with `<`), removing the bracket exposes a
leading space, and a second application removes it: `sanitize "< a" = " a"`
but `sanitize " a" = "a"`. -/
theorem sanitize_not_idempotent :
    sanitizeString (sanitizeString "< a".toList) ≠ sanitizeString "< a".toList := by
  decide

/-- C8 (amended): a second application of the sanitizer only re-trims —
`sanitize (sanitize x) = trim (sanitize x)` for every `x` — and hence the
sanitizer is idempotent on every string containing no `<` or `>`
character. -/
theorem sanitize_second_application_trims :
    (∀ s : Str, sanitizeString (sanitizeString s) = jsTrim (sanitizeString s)) ∧
    (∀ s : Str, (∀ c ∈ s, c ≠ '<' ∧ c ≠ '>') →
      sanitizeString (sanitizeString s) = sanitizeString s) := by
  refine ⟨sanitize_sanitize, fun s h => ?_⟩
  rw [sanitize_sanitize, sanitize_eq_trim_of_no_angle h, jsTrim_idem]

/-- Witness for C8's amended theorem at the angle-free string `"ab"`. -/
theorem sanitize_second_application_trims_witness :
    sanitizeString (sanitizeString "ab".toList) = sanitizeString "ab".toList :=
  sanitize_second_application_trims.2 "ab".toList (by decide)

/-- C2 counterexample: `deletePoll` called by authenticated non-owner `bob`
on `alice`'s poll returns `error = null` (the scoped delete simply matches
zero rows, which the store does not report as an error) — the claim's
promised non-null error does not occur.  The store is left unchanged. -/
theorem deletePoll_nonowner_silent_noop :
    ("bob".toList : Str) ≠ "alice".toList ∧
    deletePoll dbAlice (some "bob".toList) false none "p1".toList =
      (none, dbAlice) := by decide

/-- C2 (amended): for an authenticated caller with a functioning store,
`deletePoll` always reports `error = null`; when the caller does not own a
poll with that id (or no such poll exists) the store is unchanged, and
exactly the caller-owned polls with that id are removed. -/
theorem deletePoll_owner_scoped (db : DB) (uid id : Str) :
    (deletePoll db (some uid) false none id).1 = none ∧
    ((∀ p ∈ db.polls, ¬(p.id = id ∧ p.user_id = uid)) →
      (deletePoll db (some uid) false none id).2 = db) ∧
    (∀ p : Poll, p ∈ (deletePoll db (some uid) false none id).2.polls ↔
      (p ∈ db.polls ∧ ¬(p.id = id ∧ p.user_id = uid))) := by
  refine ⟨rfl, fun h => ?_, fun p => ?_⟩
  · show DB.mk (db.polls.filter _) db.votes = db
    have : db.polls.filter (fun p => ¬(p.id = id ∧ p.user_id = uid)) = db.polls := by
      apply List.filter_eq_self.2
      intro p hp
      exact decide_eq_true (h p hp)
    rw [this]
  · show p ∈ db.polls.filter _ ↔ _
    rw [List.mem_filter]
    simp only [decide_eq_true_eq]

/-- Witness for C2's amended theorem: `bob` deleting `alice`'s poll leaves
the store exactly as it was. -/
theorem deletePoll_owner_scoped_witness :
    (deletePoll dbAlice (some "bob".toList) false none "p1".toList).2 = dbAlice :=
  (deletePoll_owner_scoped dbAlice "bob".toList "p1".toList).2.1 (by decide)

/-- C4: for any authenticated caller, `getPollByIdWithOwnership` returns the
identical `(poll, error)` pair — with a null poll — whether no poll with the
requested id exists (`db1`) or such a poll exists but belongs to someone
else (`db2`): missing and forbidden are indistinguishable. -/
theorem getPollForEdit_indistinguishable (db1 db2 : DB) (uid id : Str)
    (h1 : ∀ p ∈ db1.polls, p.id ≠ jsTrim id)
    (h2 : ∀ p ∈ db2.polls, p.id = jsTrim id → p.user_id ≠ uid) :
    getPollByIdWithOwnership db1 (some uid) false none id =
      getPollByIdWithOwnership db2 (some uid) false none id ∧
    (getPollByIdWithOwnership db1 (some uid) false none id).1 = none := by
  have f1 : db1.polls.filter (fun p => p.id = jsTrim id ∧ p.user_id = uid) = [] := by
    apply List.filter_eq_nil_iff.2
    intro p hp
    simp only [decide_eq_true_eq]
    exact fun hc => h1 p hp hc.1
  have f2 : db2.polls.filter (fun p => p.id = jsTrim id ∧ p.user_id = uid) = [] := by
    apply List.filter_eq_nil_iff.2
    intro p hp
    simp only [decide_eq_true_eq]
    exact fun hc => h2 p hp hc.1 hc.2
  have key : ∀ db : DB,
      db.polls.filter (fun p => p.id = jsTrim id ∧ p.user_id = uid) = [] →
      getPollByIdWithOwnership db (some uid) false none id =
        if (id = [] || (jsTrim id).length = 0) = true then
          (none, some msgInvalidPollId)
        else (none, some msgPollDenied) := by
    intro db hf
    have hf' : db.polls.filter
        (fun p => decide (p.id = jsTrim id) && decide (p.user_id = uid)) = [] := by
      simpa [Bool.decide_and] using hf
    unfold getPollByIdWithOwnership
    by_cases hid : id = [] ∨ jsTrim id = []
    · simp [hid]
    · simp [hid, hf', singleRow]
  constructor
  · rw [key db1 f1, key db2 f2]
  · rw [key db1 f1]
    split <;> rfl

/-- Witness for C4 at `id = "p1"`: the empty store and a store where `carol`
owns `p1` are indistinguishable to caller `alice`. -/
theorem getPollForEdit_indistinguishable_witness :
    getPollByIdWithOwnership dbEmpty (some "alice".toList) false none "p1".toList =
      getPollByIdWithOwnership dbCarol (some "alice".toList) false none "p1".toList :=
  (getPollForEdit_indistinguishable dbEmpty dbCarol "alice".toList "p1".toList
    (by decide) (by decide)).1

theorem singleRow_nil {α : Type} : singleRow ([] : List α) = none := rfl

theorem singleRow_one {α : Type} (a : α) : singleRow [a] = some a := rfl

theorem pollIdCond_false {pollId : Str} (h : jsTrim pollId ≠ []) :
    (decide (pollId = []) || decide ((jsTrim pollId).length = 0)) = false := by
  have hp : pollId ≠ [] := fun he => h (by rw [he]; rfl)
  simp [hp, List.length_eq_zero, h]

theorem pollIdProp_false {pollId : Str} (h : jsTrim pollId ≠ []) :
    ¬(pollId = [] ∨ jsTrim pollId = []) := by
  rintro (he | he)
  · exact h (by rw [he]; rfl)
  · exact h he

/-- On a valid id whose trimmed form matches exactly one stored poll,
`getPollById` returns that poll. -/
theorem getPollById_found {db : DB} {pollId : Str} {p : Poll}
    (h1 : jsTrim pollId ≠ [])
    (h2 : db.polls.filter (fun q => q.id = jsTrim pollId) = [p]) :
    getPollById db none (jsTrim pollId) = (some p, none) := by
  unfold getPollById
  rw [jsTrim_idem]
  have hcond := pollIdCond_false h1
  simp only [hcond, Bool.false_eq_true, if_false, h2, singleRow_one]
  simp [h1]

/-- The successful anonymous-vote path of `submitVote`: the vote is appended
with a null voter identity. -/
theorem submitVote_anon_success {db : DB} {pollId : Str} {optionIndex : Int}
    {p : Poll} (h1 : jsTrim pollId ≠ [])
    (h2 : db.polls.filter (fun q => q.id = jsTrim pollId) = [p])
    (h3 : 0 ≤ optionIndex) (h4 : optionIndex < (p.options.length : Int)) :
    submitVote db none none none pollId optionIndex =
      (none, { db with votes := db.votes ++ [⟨jsTrim pollId, none, optionIndex⟩] }) := by
  unfold submitVote
  have hcond := pollIdCond_false h1
  rw [getPollById_found h1 h2]
  simp only [hcond, Bool.false_eq_true, if_false]
  have hneg : ¬optionIndex < 0 := Int.not_lt.2 h3
  have hrange : ¬(p.options.length : Int) ≤ optionIndex := Int.not_le.2 h4
  simp [hneg, hrange]

/-- C5: `submitVote` on an existing poll (i) rejects an out-of-range option
index with the out-of-range error and inserts nothing, and (ii) rejects an
authenticated caller who already has a vote on the poll (the store invariant
allows at most one such row) with the duplicate-vote error and inserts
nothing. -/
theorem submitVote_guards :
    (∀ (db : DB) (auth : Option Str) (pollId : Str) (optionIndex : Int) (p : Poll),
      jsTrim pollId ≠ [] →
      0 ≤ optionIndex →
      db.polls.filter (fun q => q.id = jsTrim pollId) = [p] →
      (p.options.length : Int) ≤ optionIndex →
      submitVote db auth none none pollId optionIndex = (some msgInvalidOption, db)) ∧
    (∀ (db : DB) (uid : Str) (pollId : Str) (optionIndex : Int) (p : Poll),
      jsTrim pollId ≠ [] →
      0 ≤ optionIndex →
      db.polls.filter (fun q => q.id = jsTrim pollId) = [p] →
      optionIndex < (p.options.length : Int) →
      0 < (db.votes.filter
        (fun v => v.poll_id = jsTrim pollId ∧ v.user_id = some uid)).length →
      (db.votes.filter
        (fun v => v.poll_id = jsTrim pollId ∧ v.user_id = some uid)).length ≤ 1 →
      submitVote db (some uid) none none pollId optionIndex =
        (some msgAlreadyVoted, db)) := by
  constructor
  · intro db auth pollId optionIndex p h1 h2 h3 h4
    unfold submitVote
    have hcond := pollIdCond_false h1
    rw [getPollById_found h1 h3]
    have hneg : ¬optionIndex < 0 := Int.not_lt.2 h2
    simp [hcond, hneg, h4, pollIdProp_false h1]
  · intro db uid pollId optionIndex p h1 h2 h3 h4 h5 h6
    unfold submitVote
    have hcond := pollIdCond_false h1
    rw [getPollById_found h1 h3]
    have hneg : ¬optionIndex < 0 := Int.not_lt.2 h2
    have hrange : ¬(p.options.length : Int) ≤ optionIndex := Int.not_le.2 h4
    have hone : (db.votes.filter
        (fun v => v.poll_id = jsTrim pollId ∧ v.user_id = some uid)).length = 1 := by
      omega
    obtain ⟨v, hv⟩ := List.length_eq_one.1 hone
    have hv' : db.votes.filter
        (fun v => decide (v.poll_id = jsTrim pollId) && decide (v.user_id = some uid)) = [v] := by
      simpa [Bool.decide_and] using hv
    simp [hcond, hneg, hrange, hv', singleRow_one, pollIdProp_false h1]

/-- Witness for C5: voting for option index 5 on the 2-option poll fails
with the out-of-range error, and `bob` voting a second time on `dbVoted`
fails with the duplicate-vote error; the store is untouched both times. -/
theorem submitVote_guards_witness :
    submitVote dbAlice none none none "p1".toList 5 =
      (some msgInvalidOption, dbAlice) ∧
    submitVote dbVoted (some "bob".toList) none none "p1".toList 0 =
      (some msgAlreadyVoted, dbVoted) := by
  constructor
  · exact submitVote_guards.1 dbAlice none "p1".toList 5
      ⟨"p1".toList, "alice".toList, "Q?".toList, ["A".toList, "B".toList]⟩
      (by decide) (by decide) (by decide) (by decide)
  · exact submitVote_guards.2 dbVoted "bob".toList "p1".toList 0
      ⟨"p1".toList, "alice".toList, "Q?".toList, ["A".toList, "B".toList]⟩
      (by decide) (by decide) (by decide) (by decide) (by decide) (by decide)

/-- C10: with no session user, `submitVote` never performs a duplicate-vote
check — the duplicate-vote message can never be returned to an
unauthenticated caller, whatever the store state or store outcomes — and
from any state containing the target poll, `k` successive anonymous calls
with a valid option index all return `error = null` and append `k` votes
carrying a null voter identity. -/
theorem submitVote_anonymous_repeatable :
    (∀ (db : DB) (pollSelectErr insertErr : Option Str) (pollId : Str)
        (optionIndex : Int),
      (submitVote db none pollSelectErr insertErr pollId optionIndex).1 ≠
        some msgAlreadyVoted) ∧
    (∀ (db : DB) (pollId : Str) (optionIndex : Int) (p : Poll) (k : Nat),
      jsTrim pollId ≠ [] →
      db.polls.filter (fun q => q.id = jsTrim pollId) = [p] →
      0 ≤ optionIndex → optionIndex < (p.options.length : Int) →
      anonRun k db pollId optionIndex =
        (List.replicate k none,
         { db with votes :=
            db.votes ++ List.replicate k ⟨jsTrim pollId, none, optionIndex⟩ })) := by
  constructor
  · intro db pollSelectErr insertErr pollId optionIndex
    unfold submitVote
    by_cases hA : pollId = [] ∨ jsTrim pollId = []
    · simp [hA]
      decide
    · by_cases hI : optionIndex < 0
      · simp [hA, hI]
        decide
      · cases hpoll : (getPollById db pollSelectErr (jsTrim pollId)).1 with
        | none =>
          simp [hA, hI, hpoll]
          decide
        | some poll =>
          by_cases hB : (poll.options.length : Int) ≤ optionIndex
          · simp [hA, hI, hpoll, hB]
            decide
          · cases insertErr with
            | some raw =>
              simp [hA, hI, hpoll, hB]
              decide
            | none =>
              simp [hA, hI, hpoll, hB]
  · intro db pollId optionIndex p k h1 h2 h3 h4
    induction k generalizing db with
    | zero =>
      cases db
      simp [anonRun]
    | succ k ih =>
      have hdef : anonRun (k + 1) db pollId optionIndex =
          ((submitVote db none none none pollId optionIndex).1 ::
            (anonRun k (submitVote db none none none pollId optionIndex).2
              pollId optionIndex).1,
           (anonRun k (submitVote db none none none pollId optionIndex).2
              pollId optionIndex).2) := rfl
      rw [hdef, submitVote_anon_success h1 h2 h3 h4]
      have h2' : ({ db with votes :=
          db.votes ++ [⟨jsTrim pollId, none, optionIndex⟩] } : DB).polls.filter
            (fun q => q.id = jsTrim pollId) = [p] := h2
      rw [ih _ h2']
      simp [List.replicate_succ, List.append_assoc]

/-- Witness for C10: three successive anonymous votes on `alice`'s poll all
succeed and append three anonymous rows. -/
theorem submitVote_anonymous_repeatable_witness :
    anonRun 3 dbAlice "p1".toList 0 =
      (List.replicate 3 none,
       { dbAlice with votes :=
          dbAlice.votes ++ List.replicate 3 ⟨jsTrim "p1".toList, none, 0⟩ }) :=
  submitVote_anonymous_repeatable.2 dbAlice "p1".toList 0
    ⟨"p1".toList, "alice".toList, "Q?".toList, ["A".toList, "B".toList]⟩ 3
    (by decide) (by decide) (by decide) (by decide)

theorem isRateLimited_no_record (email action : Str) (maxAttempts windowMs now : Nat)
    (m : RateMap) (h : lookupR m (getRateLimitKey email action) = none) :
    isRateLimited email action maxAttempts windowMs now m =
      (false, insertR m (getRateLimitKey email action) ⟨1, now⟩) := by
  unfold isRateLimited
  simp [h]

theorem isRateLimited_elapsed (email action : Str) (maxAttempts windowMs now : Nat)
    (m : RateMap) (r : RateRecord)
    (h : lookupR m (getRateLimitKey email action) = some r)
    (hw : windowMs < now - r.lastAttempt) :
    isRateLimited email action maxAttempts windowMs now m =
      (false, insertR m (getRateLimitKey email action) ⟨1, now⟩) := by
  unfold isRateLimited
  simp [h, hw]

theorem isRateLimited_within (email action : Str) (maxAttempts windowMs now : Nat)
    (m : RateMap) (r : RateRecord)
    (h : lookupR m (getRateLimitKey email action) = some r)
    (hw : now - r.lastAttempt ≤ windowMs) :
    isRateLimited email action maxAttempts windowMs now m =
      (decide (maxAttempts < r.attempts + 1),
       insertR m (getRateLimitKey email action) ⟨r.attempts + 1, now⟩) := by
  unfold isRateLimited
  simp [h, Nat.not_lt.2 hw]

/-- C6: the limiter on key `action:lowercase(email)` (i) stores
`{attempts := 1, lastAttempt := now}` and reports not limited when no record
exists, (ii) does the same when strictly more than the window has elapsed
since the last attempt, (iii) otherwise increments the count, updates the
timestamp, and reports limited iff the incremented count exceeds
`maxAttempts`; consequently (iv) with `maxAttempts = 5`, of six calls whose
consecutive gaps stay within the window only the sixth reports limited, and
(v) after the record is deleted (`clear`) the next call behaves exactly like
a first-ever attempt. -/
theorem rateLimiter_semantics :
    (∀ (email action : Str) (maxAttempts windowMs now : Nat) (m : RateMap),
      lookupR m (getRateLimitKey email action) = none →
      isRateLimited email action maxAttempts windowMs now m =
        (false, insertR m (getRateLimitKey email action) ⟨1, now⟩)) ∧
    (∀ (email action : Str) (maxAttempts windowMs now : Nat) (m : RateMap)
        (r : RateRecord),
      lookupR m (getRateLimitKey email action) = some r →
      windowMs < now - r.lastAttempt →
      isRateLimited email action maxAttempts windowMs now m =
        (false, insertR m (getRateLimitKey email action) ⟨1, now⟩)) ∧
    (∀ (email action : Str) (maxAttempts windowMs now : Nat) (m : RateMap)
        (r : RateRecord),
      lookupR m (getRateLimitKey email action) = some r →
      now - r.lastAttempt ≤ windowMs →
      isRateLimited email action maxAttempts windowMs now m =
        (decide (maxAttempts < r.attempts + 1),
         insertR m (getRateLimitKey email action) ⟨r.attempts + 1, now⟩)) ∧
    (∀ (email action : Str) (windowMs : Nat) (m : RateMap)
        (t1 t2 t3 t4 t5 t6 : Nat),
      lookupR m (getRateLimitKey email action) = none →
      t2 - t1 ≤ windowMs → t3 - t2 ≤ windowMs → t4 - t3 ≤ windowMs →
      t5 - t4 ≤ windowMs → t6 - t5 ≤ windowMs →
      (rlRun email action 5 windowMs [t1, t2, t3, t4, t5, t6] m).1 =
        [false, false, false, false, false, true]) ∧
    (∀ (email action : Str) (maxAttempts windowMs now : Nat) (m : RateMap),
      isRateLimited email action maxAttempts windowMs now
          (eraseR m (getRateLimitKey email action)) =
        (false, insertR (eraseR m (getRateLimitKey email action))
          (getRateLimitKey email action) ⟨1, now⟩)) := by
  refine ⟨isRateLimited_no_record, isRateLimited_elapsed, isRateLimited_within,
    ?_, ?_⟩
  · intro email action w m t1 t2 t3 t4 t5 t6 h0 g1 g2 g3 g4 g5
    have s1 : isRateLimited email action 5 w t1 m =
        (false, insertR m (getRateLimitKey email action) ⟨1, t1⟩) :=
      isRateLimited_no_record email action 5 w t1 m h0
    have s2 : isRateLimited email action 5 w t2
          (insertR m (getRateLimitKey email action) ⟨1, t1⟩) =
        (false, insertR (insertR m (getRateLimitKey email action) ⟨1, t1⟩)
          (getRateLimitKey email action) ⟨2, t2⟩) :=
      isRateLimited_within email action 5 w t2 _ ⟨1, t1⟩
        (lookupR_insertR_self m _ ⟨1, t1⟩) g1
    have s3 : isRateLimited email action 5 w t3
          (insertR (insertR m (getRateLimitKey email action) ⟨1, t1⟩)
            (getRateLimitKey email action) ⟨2, t2⟩) =
        (false, insertR (insertR (insertR m (getRateLimitKey email action) ⟨1, t1⟩)
          (getRateLimitKey email action) ⟨2, t2⟩)
          (getRateLimitKey email action) ⟨3, t3⟩) :=
      isRateLimited_within email action 5 w t3 _ ⟨2, t2⟩
        (lookupR_insertR_self _ _ ⟨2, t2⟩) g2
    have s4 : isRateLimited email action 5 w t4
          (insertR (insertR (insertR m (getRateLimitKey email action) ⟨1, t1⟩)
            (getRateLimitKey email action) ⟨2, t2⟩)
            (getRateLimitKey email action) ⟨3, t3⟩) =
        (false, insertR (insertR (insertR (insertR m
          (getRateLimitKey email action) ⟨1, t1⟩)
          (getRateLimitKey email action) ⟨2, t2⟩)
          (getRateLimitKey email action) ⟨3, t3⟩)
          (getRateLimitKey email action) ⟨4, t4⟩) :=
      isRateLimited_within email action 5 w t4 _ ⟨3, t3⟩
        (lookupR_insertR_self _ _ ⟨3, t3⟩) g3
    have s5 : isRateLimited email action 5 w t5
          (insertR (insertR (insertR (insertR m
            (getRateLimitKey email action) ⟨1, t1⟩)
            (getRateLimitKey email action) ⟨2, t2⟩)
            (getRateLimitKey email action) ⟨3, t3⟩)
            (getRateLimitKey email action) ⟨4, t4⟩) =
        (false, insertR (insertR (insertR (insertR (insertR m
          (getRateLimitKey email action) ⟨1, t1⟩)
          (getRateLimitKey email action) ⟨2, t2⟩)
          (getRateLimitKey email action) ⟨3, t3⟩)
          (getRateLimitKey email action) ⟨4, t4⟩)
          (getRateLimitKey email action) ⟨5, t5⟩) :=
      isRateLimited_within email action 5 w t5 _ ⟨4, t4⟩
        (lookupR_insertR_self _ _ ⟨4, t4⟩) g4
    have s6 : isRateLimited email action 5 w t6
          (insertR (insertR (insertR (insertR (insertR m
            (getRateLimitKey email action) ⟨1, t1⟩)
            (getRateLimitKey email action) ⟨2, t2⟩)
            (getRateLimitKey email action) ⟨3, t3⟩)
            (getRateLimitKey email action) ⟨4, t4⟩)
            (getRateLimitKey email action) ⟨5, t5⟩) =
        (true, insertR (insertR (insertR (insertR (insertR (insertR m
          (getRateLimitKey email action) ⟨1, t1⟩)
          (getRateLimitKey email action) ⟨2, t2⟩)
          (getRateLimitKey email action) ⟨3, t3⟩)
          (getRateLimitKey email action) ⟨4, t4⟩)
          (getRateLimitKey email action) ⟨5, t5⟩)
          (getRateLimitKey email action) ⟨6, t6⟩) :=
      isRateLimited_within email action 5 w t6 _ ⟨5, t5⟩
        (lookupR_insertR_self _ _ ⟨5, t5⟩) g5
    simp only [rlRun, s1, s2, s3, s4, s5, s6]
  · intro email action maxAttempts windowMs now m
    exact isRateLimited_no_record email action maxAttempts windowMs now
      (eraseR m (getRateLimitKey email action))
      (lookupR_eraseR_self m (getRateLimitKey email action))

/-- An existing rate-limit record with three attempts at time 0, used by the
C6 witness. -/
def rateMap3 : RateMap :=
  [(getRateLimitKey "a".toList "x".toList, ⟨3, 0⟩)]

/-- Witness for C6: every clause of the rate-limiter theorem instantiated at
concrete keys, timestamps and maps. -/
theorem rateLimiter_semantics_witness :
    (isRateLimited "a".toList "x".toList 5 900000 0 [] =
      (false, insertR [] (getRateLimitKey "a".toList "x".toList) ⟨1, 0⟩)) ∧
    (isRateLimited "a".toList "x".toList 5 10 100 rateMap3 =
      (false, insertR rateMap3 (getRateLimitKey "a".toList "x".toList) ⟨1, 100⟩)) ∧
    (isRateLimited "a".toList "x".toList 5 1000 100 rateMap3 =
      (false, insertR rateMap3 (getRateLimitKey "a".toList "x".toList) ⟨4, 100⟩)) ∧
    ((rlRun "a".toList "x".toList 5 900000 [0, 1, 2, 3, 4, 5] []).1 =
      [false, false, false, false, false, true]) ∧
    (isRateLimited "a".toList "x".toList 5 900000 7
        (eraseR rateMap3 (getRateLimitKey "a".toList "x".toList)) =
      (false, insertR (eraseR rateMap3 (getRateLimitKey "a".toList "x".toList))
        (getRateLimitKey "a".toList "x".toList) ⟨1, 7⟩)) :=
  ⟨rateLimiter_semantics.1 "a".toList "x".toList 5 900000 0 [] (by decide),
   rateLimiter_semantics.2.1 "a".toList "x".toList 5 10 100 rateMap3 ⟨3, 0⟩
     (by decide) (by decide),
   rateLimiter_semantics.2.2.1 "a".toList "x".toList 5 1000 100 rateMap3 ⟨3, 0⟩
     (by decide) (by decide),
   rateLimiter_semantics.2.2.2.1 "a".toList "x".toList 900000 [] 0 1 2 3 4 5
     (by decide) (by decide) (by decide) (by decide) (by decide) (by decide),
   rateLimiter_semantics.2.2.2.2 "a".toList "x".toList 5 900000 7 rateMap3⟩

/-! ### Lemmas about the vote tally fold -/

/-- The counting predicate tracked through the tally fold: the vote is in
range and falls in slot `i`. -/
def tpred (n i : Nat) (v : Vote) : Bool :=
  decide (0 ≤ v.option_index ∧ v.option_index < (n : Int) ∧ v.option_index.toNat = i)

theorem getD_set_self (l : List Nat) (j x : Nat) (h : j < l.length) :
    (l.set j x).getD j 0 = x := by
  rw [List.getD_eq_getElem _ _ (by simpa using h)]
  exact List.getElem_set_self _

theorem getD_set_ne (l : List Nat) (j x i : Nat) (h : j ≠ i) :
    (l.set j x).getD i 0 = l.getD i 0 := by
  rw [List.getD_eq_getElem?_getD, List.getD_eq_getElem?_getD, List.getElem?_set]
  simp [h]

theorem tallyStep_length (n : Nat) (acc : List Nat) (v : Vote) :
    (tallyStep n acc v).length = acc.length := by
  unfold tallyStep
  split <;> simp

theorem foldl_tallyStep_length (n : Nat) (votes : List Vote) :
    ∀ acc : List Nat, (votes.foldl (tallyStep n) acc).length = acc.length := by
  induction votes with
  | nil => intro acc; rfl
  | cons v vs ih =>
    intro acc
    rw [List.foldl_cons, ih, tallyStep_length]

theorem tallyStep_getD (n : Nat) (acc : List Nat) (v : Vote)
    (hlen : acc.length = n) (i : Nat) (hi : i < n) :
    (tallyStep n acc v).getD i 0 =
      acc.getD i 0 + (if tpred n i v then 1 else 0) := by
  unfold tallyStep tpred
  by_cases hr : 0 ≤ v.option_index ∧ v.option_index < (n : Int)
  · rw [if_pos hr]
    by_cases h3 : v.option_index.toNat = i
    · rw [← h3, getD_set_self _ _ _ (by omega)]
      simp [hr.1, hr.2, h3]
    · rw [getD_set_ne _ _ _ _ h3]
      simp [h3]
  · rw [if_neg hr]
    have : ¬(0 ≤ v.option_index ∧ v.option_index < (n : Int) ∧
        v.option_index.toNat = i) := fun ⟨a, b, _⟩ => hr ⟨a, b⟩
    simp [this]

theorem foldl_tallyStep_getD (n : Nat) (votes : List Vote) :
    ∀ acc : List Nat, acc.length = n → ∀ i, i < n →
      (votes.foldl (tallyStep n) acc).getD i 0 =
        acc.getD i 0 + votes.countP (tpred n i) := by
  induction votes with
  | nil => intro acc _ i _; simp
  | cons v vs ih =>
    intro acc hlen i hi
    rw [List.foldl_cons,
      ih (tallyStep n acc v) (by rw [tallyStep_length, hlen]) i hi,
      tallyStep_getD n acc v hlen i hi, List.countP_cons]
    cases h : tpred n i v
    · simp [h]
    · simp [h]
      omega

theorem sum_set_getD : ∀ (l : List Nat) (j : Nat), j < l.length →
    (l.set j (l.getD j 0 + 1)).sum = l.sum + 1 := by
  intro l
  induction l with
  | nil => intro j h; simp at h
  | cons x xs ih =>
    intro j h
    cases j with
    | zero => simp [List.sum_cons]; omega
    | succ j =>
      have h' : j < xs.length := by simpa using h
      simp only [List.set, List.getD_cons_succ, List.sum_cons, ih j h']
      omega

theorem foldl_tallyStep_sum (n : Nat) (votes : List Vote) :
    ∀ acc : List Nat, acc.length = n →
      (votes.foldl (tallyStep n) acc).sum =
        acc.sum + votes.countP
          (fun v => 0 ≤ v.option_index ∧ v.option_index < (n : Int)) := by
  induction votes with
  | nil => intro acc _; simp
  | cons v vs ih =>
    intro acc hlen
    rw [List.foldl_cons, ih _ (by rw [tallyStep_length, hlen]), List.countP_cons]
    unfold tallyStep
    by_cases hr : 0 ≤ v.option_index ∧ v.option_index < (n : Int)
    · rw [if_pos hr, sum_set_getD _ _ (by omega)]
      simp [hr]
      omega
    · rw [if_neg hr]
      simp [hr]

theorem tallyVotes_length (n : Nat) (votes : List Vote) :
    (tallyVotes n votes).length = n := by
  unfold tallyVotes
  rw [foldl_tallyStep_length]
  simp

theorem tallyVotes_eq_counts (n : Nat) (votes : List Vote) :
    tallyVotes n votes =
      (List.range n).map
        (fun (i : Nat) => votes.countP (fun v => v.option_index = (i : Int))) := by
  apply List.ext_getElem
  · rw [tallyVotes_length]
    simp
  · intro i h1 h2
    have hi : i < n := by
      rw [tallyVotes_length] at h1
      exact h1
    rw [List.getElem_map, List.getElem_range,
      ← List.getD_eq_getElem (tallyVotes n votes) 0 h1]
    unfold tallyVotes
    rw [foldl_tallyStep_getD n votes _ (by simp) i hi]
    have hrep : (List.replicate n (0 : Nat)).getD i 0 = 0 := by
      rw [List.getD_eq_getElem _ _ (by simpa using hi)]
      simp
    rw [hrep, Nat.zero_add]
    apply List.countP_congr
    intro v _
    simp only [tpred, decide_eq_true_eq]
    constructor
    · rintro ⟨a, b, c⟩
      omega
    · intro hEq
      refine ⟨by omega, by omega, by omega⟩

theorem tallyVotes_sum (n : Nat) (votes : List Vote) :
    (tallyVotes n votes).sum =
      votes.countP (fun v => 0 ≤ v.option_index ∧ v.option_index < (n : Int)) := by
  unfold tallyVotes
  rw [foldl_tallyStep_sum n votes _ (by simp)]
  simp

/-- C9: for an existing poll with `n` options, `getVoteCounts` succeeds and
returns the length-`n` array whose `i`-th entry counts exactly the recorded
votes of this poll with `option_index = i`; out-of-range votes contribute to
no entry, and the entries sum to the number of in-range votes. -/
theorem getVoteCounts_counts_votes (db : DB) (pollId : Str) (p : Poll)
    (h1 : jsTrim pollId ≠ [])
    (h2 : db.polls.filter (fun q => q.id = jsTrim pollId) = [p]) :
    getVoteCounts db none none pollId =
      ((List.range p.options.length).map (fun (i : Nat) =>
        (db.votes.filter (fun v => v.poll_id = jsTrim pollId)).countP
          (fun v => v.option_index = (i : Int))), none) ∧
    (getVoteCounts db none none pollId).1.length = p.options.length ∧
    (getVoteCounts db none none pollId).1.sum =
      (db.votes.filter (fun v => v.poll_id = jsTrim pollId)).countP
        (fun v => 0 ≤ v.option_index ∧
          v.option_index < (p.options.length : Int)) := by
  have hmain : getVoteCounts db none none pollId =
      (tallyVotes p.options.length
        (db.votes.filter (fun v => v.poll_id = jsTrim pollId)), none) := by
    unfold getVoteCounts
    rw [getPollById_found h1 h2]
    simp [pollIdProp_false h1]
  refine ⟨?_, ?_, ?_⟩
  · rw [hmain, tallyVotes_eq_counts]
  · rw [hmain]
    exact tallyVotes_length _ _
  · rw [hmain]
    exact tallyVotes_sum _ _

/-- Witness for C9: the spec's own example — votes at indices 0, 1, 0 on a
2-option poll tally to `[2, 1]` (total 3). -/
theorem getVoteCounts_counts_votes_witness :
    getVoteCounts dbTally none none "p1".toList = ([2, 1], none) :=
  ((getVoteCounts_counts_votes dbTally "p1".toList
    ⟨"p1".toList, "alice".toList, "Q?".toList, ["A".toList, "B".toList]⟩
    (by decide) (by decide)).1).trans (by decide)

/-! ### Spec-side predicates for the poll-input rules (C7)

These are written from the spec's wording ("question required, non-empty
after trim, ≤500 chars; options an ordered sequence of length 2–10; after
filtering empty entries still ≥2; each non-empty option ≤200 chars"), to be
compared with `validatePollInput` above. -/

/-- The spec's question rule. -/
def specQuestionOk (question : Option Str) : Bool :=
  match question with
  | none => false
  | some q => !(jsTrim q).isEmpty && (jsTrim q).length ≤ 500

/-- The spec's options rules. -/
def specOptionsOk (options : List Str) : Bool :=
  2 ≤ options.length && options.length ≤ 10 &&
  2 ≤ (options.filter (fun o => 0 < (jsTrim o).length)).length &&
  (options.filter (fun o => 0 < (jsTrim o).length)).all
    (fun o => (jsTrim o).length ≤ 200)

theorem questionErrors_some_eq (s : Str) :
    questionErrors (some s) =
      (if s = [] then [msgQuestionRequired]
       else if (jsTrim s).length = 0 then [msgQuestionEmpty]
       else if 500 < (jsTrim s).length then [msgQuestionTooLong] else []) := rfl

theorem specQuestionOk_some_eq (s : Str) :
    specQuestionOk (some s) =
      (!(jsTrim s).isEmpty && decide ((jsTrim s).length ≤ 500)) := rfl

theorem questionErrors_eq_nil_iff (q : Option Str) :
    questionErrors q = [] ↔ specQuestionOk q = true := by
  cases q with
  | none => simp [questionErrors, specQuestionOk]
  | some s =>
    rw [questionErrors_some_eq, specQuestionOk_some_eq]
    by_cases hs : s = []
    · subst hs
      simp [jsTrim]
    · rw [if_neg hs]
      by_cases ht : (jsTrim s).length = 0
      · simp [ht, List.isEmpty_iff, List.length_eq_zero.1 ht]
      · rw [if_neg ht]
        by_cases hl : 500 < (jsTrim s).length
        · rw [if_pos hl]
          simp [List.isEmpty_iff]
          intro _
          omega
        · rw [if_neg hl]
          simp [List.isEmpty_iff]
          refine ⟨fun he => ht (by rw [he]; rfl), by omega⟩

theorem optionErrors_in_range {opts : List Str} (h2 : 2 ≤ opts.length)
    (h10 : opts.length ≤ 10) :
    optionErrors opts =
      (if (opts.filter (fun o => 0 < (jsTrim o).length)).length < 2 then
        [msgOptsNonEmpty] else []) ++
      (if 0 < ((opts.filter (fun o => 0 < (jsTrim o).length)).filter
          (fun o => 200 < (jsTrim o).length)).length then
        [msgOptTooLong] else []) := by
  unfold optionErrors
  rw [if_neg (by omega), if_neg (by omega)]

theorem optionErrors_eq_nil_iff (opts : List Str) :
    optionErrors opts = [] ↔ specOptionsOk opts = true := by
  by_cases h2 : opts.length < 2
  · unfold optionErrors specOptionsOk
    simp [h2]
  · by_cases h10 : 10 < opts.length
    · unfold optionErrors specOptionsOk
      rw [if_neg h2, if_pos h10]
      simp
      omega
    · rw [optionErrors_in_range (by omega) (by omega)]
      unfold specOptionsOk
      rw [List.append_eq_nil]
      constructor
      · rintro ⟨e1, e2⟩
        have c1 : ¬(opts.filter (fun o => 0 < (jsTrim o).length)).length < 2 := by
          by_contra hc
          rw [if_pos hc] at e1
          exact List.cons_ne_nil _ _ e1
        have c2 : ¬0 < ((opts.filter (fun o => 0 < (jsTrim o).length)).filter
            (fun o => 200 < (jsTrim o).length)).length := by
          by_contra hc
          rw [if_pos hc] at e2
          exact List.cons_ne_nil _ _ e2
        have hnil : (opts.filter (fun o => 0 < (jsTrim o).length)).filter
            (fun o => 200 < (jsTrim o).length) = [] :=
          List.length_eq_zero.1 (by omega)
        have call : ∀ o ∈ opts.filter (fun o => 0 < (jsTrim o).length),
            ¬200 < (jsTrim o).length := by
          intro o ho
          by_contra hc
          have hmem : o ∈ (opts.filter (fun o => 0 < (jsTrim o).length)).filter
              (fun o => 200 < (jsTrim o).length) :=
            List.mem_filter.2 ⟨ho, decide_eq_true hc⟩
          rw [hnil] at hmem
          simp at hmem
        simp only [Bool.and_eq_true, decide_eq_true_eq, List.all_eq_true]
        refine ⟨⟨⟨by omega, by omega⟩, by omega⟩, ?_⟩
        intro o ho
        have := call o ho
        omega
      · intro hok
        simp only [Bool.and_eq_true, decide_eq_true_eq, List.all_eq_true] at hok
        obtain ⟨⟨⟨_, _⟩, hcnt⟩, hall⟩ := hok
        have hlenz : ((opts.filter (fun o => 0 < (jsTrim o).length)).filter
            (fun o => 200 < (jsTrim o).length)) = [] := by
          apply List.filter_eq_nil_iff.2
          intro o ho
          have := hall o ho
          simp only [decide_eq_true_eq] at this ⊢
          omega
        refine ⟨by rw [if_neg (by omega)], by rw [hlenz]; simp⟩

theorem option_msg_not_in_questionErrors (q : Option Str) (m : Str)
    (hm : m = msgOptsNonEmpty ∨ m = msgOptTooLong) :
    m ∉ questionErrors q := by
  cases q with
  | none =>
    rcases hm with h | h <;> subst h <;> decide
  | some s =>
    rw [questionErrors_some_eq]
    rcases hm with h | h <;> subst h <;> split_ifs <;> decide

theorem question_msg_cases (q : Option Str) (h : ¬specQuestionOk q = true) :
    questionErrors q = [msgQuestionRequired] ∨
    questionErrors q = [msgQuestionEmpty] ∨
    questionErrors q = [msgQuestionTooLong] := by
  cases q with
  | none => left; rfl
  | some s =>
    rw [questionErrors_some_eq]
    rw [specQuestionOk_some_eq] at h
    by_cases hs : s = []
    · rw [if_pos hs]; left; rfl
    · rw [if_neg hs]
      by_cases ht : (jsTrim s).length = 0
      · rw [if_pos ht]; right; left; rfl
      · rw [if_neg ht]
        by_cases hl : 500 < (jsTrim s).length
        · rw [if_pos hl]; right; right; rfl
        · exfalso
          apply h
          simp [List.isEmpty_iff]
          refine ⟨fun he => ht (by rw [he]; rfl), by omega⟩

/-- C7 (amended): `validatePollInput` returns the empty list exactly when
every spec rule holds; whenever the question rule is violated one of the
three question messages is present (whatever the options are); and when the
option count lies within 2–10 the two per-option rules are batch-reported —
each message present iff its rule is violated — so only an option count
outside 2–10 suppresses the other option messages. -/
theorem validatePollInput_characterization :
    (∀ (q : Option Str) (opts : List Str),
      validatePollInput q opts = [] ↔
        (specQuestionOk q = true ∧ specOptionsOk opts = true)) ∧
    (∀ (q : Option Str) (opts : List Str),
      ¬specQuestionOk q = true →
      (msgQuestionRequired ∈ validatePollInput q opts ∨
       msgQuestionEmpty ∈ validatePollInput q opts ∨
       msgQuestionTooLong ∈ validatePollInput q opts)) ∧
    (∀ (q : Option Str) (opts : List Str),
      2 ≤ opts.length → opts.length ≤ 10 →
      ((msgOptsNonEmpty ∈ validatePollInput q opts ↔
        (opts.filter (fun o => 0 < (jsTrim o).length)).length < 2) ∧
       (msgOptTooLong ∈ validatePollInput q opts ↔
        0 < ((opts.filter (fun o => 0 < (jsTrim o).length)).filter
          (fun o => 200 < (jsTrim o).length)).length))) := by
  refine ⟨?_, ?_, ?_⟩
  · intro q opts
    unfold validatePollInput
    rw [List.append_eq_nil, questionErrors_eq_nil_iff, optionErrors_eq_nil_iff]
  · intro q opts h
    rcases question_msg_cases q h with hq | hq | hq
    · left
      exact List.mem_append_left _ (by rw [hq]; exact List.mem_singleton_self _)
    · right; left
      exact List.mem_append_left _ (by rw [hq]; exact List.mem_singleton_self _)
    · right; right
      exact List.mem_append_left _ (by rw [hq]; exact List.mem_singleton_self _)
  · intro q opts h2 h10
    have hrange := optionErrors_in_range h2 h10
    constructor
    · rw [validatePollInput, List.mem_append, hrange, List.mem_append]
      constructor
      · rintro (hq | ho)
        · exact absurd hq (option_msg_not_in_questionErrors q _ (Or.inl rfl))
        · rcases ho with ho | ho
          · by_contra hc
            rw [if_neg hc] at ho
            simp at ho
          · by_cases hc : 0 < ((opts.filter (fun o => 0 < (jsTrim o).length)).filter
                (fun o => 200 < (jsTrim o).length)).length
            · rw [if_pos hc] at ho
              simp at ho
              exact absurd ho (by decide)
            · rw [if_neg hc] at ho
              simp at ho
      · intro hc
        right; left
        rw [if_pos hc]
        exact List.mem_singleton_self _
    · rw [validatePollInput, List.mem_append, hrange, List.mem_append]
      constructor
      · rintro (hq | ho)
        · exact absurd hq (option_msg_not_in_questionErrors q _ (Or.inr rfl))
        · rcases ho with ho | ho
          · by_cases hc : (opts.filter (fun o => 0 < (jsTrim o).length)).length < 2
            · rw [if_pos hc] at ho
              simp at ho
              exact absurd ho (by decide)
            · rw [if_neg hc] at ho
              simp at ho
          · by_contra hc
            rw [if_neg hc] at ho
            simp at ho
      · intro hc
        right; right
        rw [if_pos hc]
        exact List.mem_singleton_self _

/-- The 11-element option list (one 201-character entry) on which a violated
rule goes unreported. -/
def cexOptions : List Str := List.replicate 201 'a' :: List.replicate 10 ['b']

/-- C7 counterexample: on 11 options one of which is 201 characters long,
the per-option length rule is violated (there is a non-empty option longer
than 200 characters after trim) yet the returned list is only the
option-count message — the too-long message is missing, so the list does not
contain a message for every violated rule. -/
theorem validatePollInput_misses_violated_rule :
    0 < ((cexOptions.filter (fun o => 0 < (jsTrim o).length)).filter
      (fun o => 200 < (jsTrim o).length)).length ∧
    validatePollInput (some ['q']) cexOptions = [msgOptsMax] ∧
    msgOptTooLong ∉ validatePollInput (some ['q']) cexOptions := by decide

/-- Witness for C7's amended theorem: a missing question plus a single
non-empty option yields both the question-required message and (count in
range) the non-empty-count message. -/
theorem validatePollInput_characterization_witness :
    (msgQuestionRequired ∈ validatePollInput none [['a'], []] ∨
     msgQuestionEmpty ∈ validatePollInput none [['a'], []] ∨
     msgQuestionTooLong ∈ validatePollInput none [['a'], []]) ∧
    msgOptsNonEmpty ∈ validatePollInput none [['a'], []] :=
  ⟨validatePollInput_characterization.2.1 none [['a'], []] (by decide),
   ((validatePollInput_characterization.2.2 none [['a'], []]
     (by decide) (by decide)).1).mpr (by decide)⟩

/-- The fixed, generic user-facing error messages of the boundary. -/
def genericMessages : List Str :=
  [msgInvalidPollId, msgPollNotFound, msgPollDenied, msgAuthRequired,
   msgInvalidOption, msgAlreadyVoted, msgVoteFailed, msgDeleteAuth,
   msgDeleteFailed, msgUpdateAuth, msgUpdateFailed, msgVoteDataFailed,
   msgMustLogin, msgNotAuthenticated, msgTooManyLogins, msgTooManyRegs,
   msgInvalidCreds, msgEmailExists, msgRegFailed]

/-- A raw store error message, as the opaque store might produce. -/
def rawError : Str := "RAW_STORE_ERROR".toList

theorem singleRow_eq_none_of_length_ne_one {α : Type} {l : List α}
    (h : l.length ≠ 1) : singleRow l = none := by
  cases l with
  | nil => rfl
  | cons a t =>
    cases t with
    | nil => exact absurd rfl h
    | cons b t2 => rfl

/-- C3 (amended): for getPollById, getPollByIdWithOwnership, submitVote,
deletePoll, updatePoll, getVoteCounts, login and register, a failing store
or identity-oracle call is reported with a fixed generic message (each a
member of the closed `genericMessages` set), independent of the raw error
text `raw`.  (createPoll and getUserPolls are the exceptions — see the
counterexample.) -/
theorem store_failures_generic :
    (∀ (db : DB) (id raw : Str),
      jsTrim id ≠ [] →
      (getPollById db (some raw) id).2 = some msgPollNotFound) ∧
    (∀ (db : DB) (uid id raw : Str),
      jsTrim id ≠ [] →
      (getPollByIdWithOwnership db (some uid) false (some raw) id).2 =
        some msgPollDenied) ∧
    (∀ (db : DB) (auth : Option Str) (pollId : Str) (optionIndex : Int)
        (p : Poll) (raw : Str),
      jsTrim pollId ≠ [] →
      0 ≤ optionIndex →
      db.polls.filter (fun q => q.id = jsTrim pollId) = [p] →
      optionIndex < (p.options.length : Int) →
      (∀ uid, auth = some uid →
        (db.votes.filter (fun v => v.poll_id = jsTrim pollId ∧
          v.user_id = some uid)).length ≠ 1) →
      (submitVote db auth none (some raw) pollId optionIndex).1 =
        some msgVoteFailed) ∧
    (∀ (db : DB) (uid id raw : Str),
      (deletePoll db (some uid) false (some raw) id).1 = some msgDeleteFailed) ∧
    (∀ (db : DB) (uid pollId raw : Str) (question : Option Str)
        (options0 : List Str),
      jsTrim pollId ≠ [] →
      validatePollInput question (options0.filter (fun o => ¬o = [])) = [] →
      (updatePoll db (some uid) false (some raw) pollId question options0).1 =
        some msgUpdateFailed) ∧
    (∀ (db : DB) (pollId raw : Str) (pErr : Option Str),
      jsTrim pollId ≠ [] →
      (getVoteCounts db (some raw) pErr pollId).2 = some msgVoteDataFailed) ∧
    (∀ (m : RateMap) (now : Nat) (email password raw : Str),
      validateEmail email = none →
      validatePassword password = none →
      (isRateLimited (jsToLower (jsTrim email)) "login".toList 5
        (15 * 60 * 1000) now m).1 = false →
      (login m now (some raw) email password).1 = some msgInvalidCreds) ∧
    (∀ (m : RateMap) (now : Nat) (name email password raw : Str),
      validateName name = none →
      validateEmail email = none →
      validatePassword password = none →
      (isRateLimited (jsToLower (jsTrim email)) "register".toList 3
        (60 * 60 * 1000) now m).1 = false →
      ((register m now (some raw) name email password).1 = some msgEmailExists ∨
       (register m now (some raw) name email password).1 = some msgRegFailed)) ∧
    (msgPollNotFound ∈ genericMessages ∧ msgPollDenied ∈ genericMessages ∧
     msgVoteFailed ∈ genericMessages ∧ msgDeleteFailed ∈ genericMessages ∧
     msgUpdateFailed ∈ genericMessages ∧ msgVoteDataFailed ∈ genericMessages ∧
     msgInvalidCreds ∈ genericMessages ∧ msgEmailExists ∈ genericMessages ∧
     msgRegFailed ∈ genericMessages) := by
  refine ⟨?_, ?_, ?_, ?_, ?_, ?_, ?_, ?_, by decide⟩
  · intro db id raw h
    unfold getPollById
    simp [pollIdProp_false h]
  · intro db uid id raw h
    unfold getPollByIdWithOwnership
    simp [pollIdProp_false h]
  · intro db auth pollId optionIndex p raw h1 h2 h3 h4 h5
    unfold submitVote
    rw [getPollById_found h1 h3]
    have hneg : ¬optionIndex < 0 := Int.not_lt.2 h2
    have hrange : ¬(p.options.length : Int) ≤ optionIndex := Int.not_le.2 h4
    cases auth with
    | none => simp [pollIdProp_false h1, hneg, hrange]
    | some uid =>
      have hnone : singleRow (db.votes.filter
          (fun v => v.poll_id = jsTrim pollId ∧ v.user_id = some uid)) = none :=
        singleRow_eq_none_of_length_ne_one (h5 uid rfl)
      have hnone' : singleRow (db.votes.filter
          (fun v => decide (v.poll_id = jsTrim pollId) &&
            decide (v.user_id = some uid))) = none := by
        simpa [Bool.decide_and] using hnone
      simp [pollIdProp_false h1, hneg, hrange, hnone']
  · intro db uid id raw
    rfl
  · intro db uid pollId raw question options0 h1 hval
    unfold updatePoll
    have hval' : validatePollInput question
        (options0.filter (fun o => !decide (o = []))) = [] := by
      simpa [decide_not] using hval
    simp [pollIdProp_false h1, hval']
  · intro db pollId raw pErr h1
    unfold getVoteCounts
    simp [pollIdProp_false h1]
  · intro m now email password raw hE hP hR
    unfold login
    rw [hE, hP]
    simp only [hR, Bool.false_eq_true, if_false]
  · intro m now name email password raw hN hE hP hR
    unfold register
    rw [hN, hE, hP]
    simp only [hR, Bool.false_eq_true, if_false]
    by_cases hc : containsSub raw "already registered".toList = true
    · left
      rw [if_pos hc]
    · right
      rw [if_neg hc]

/-- Witness for C3's amended theorem: every clause instantiated at concrete
stores, identities and the raw message `RAW_STORE_ERROR`. -/
theorem store_failures_generic_witness :
    (getPollById dbEmpty (some rawError) "p1".toList).2 = some msgPollNotFound ∧
    (getPollByIdWithOwnership dbEmpty (some "alice".toList) false
      (some rawError) "p1".toList).2 = some msgPollDenied ∧
    (submitVote dbAlice none none (some rawError) "p1".toList 0).1 =
      some msgVoteFailed ∧
    (deletePoll dbEmpty (some "alice".toList) false (some rawError)
      "p1".toList).1 = some msgDeleteFailed ∧
    (updatePoll dbAlice (some "alice".toList) false (some rawError)
      "p1".toList (some "Q2?".toList) ["A".toList, "B".toList]).1 =
      some msgUpdateFailed ∧
    (getVoteCounts dbEmpty (some rawError) none "p1".toList).2 =
      some msgVoteDataFailed ∧
    (login [] 0 (some rawError) "a@b\\.cd".toList "abc\\d123".toList).1 =
      some msgInvalidCreds ∧
    ((register [] 0 (some rawError) "John".toList "a@b\\.cd".toList
        "abc\\d123".toList).1 = some msgEmailExists ∨
     (register [] 0 (some rawError) "John".toList "a@b\\.cd".toList
        "abc\\d123".toList).1 = some msgRegFailed) :=
  ⟨store_failures_generic.1 dbEmpty "p1".toList rawError (by decide),
   store_failures_generic.2.1 dbEmpty "alice".toList "p1".toList rawError
     (by decide),
   store_failures_generic.2.2.1 dbAlice none "p1".toList 0
     ⟨"p1".toList, "alice".toList, "Q?".toList, ["A".toList, "B".toList]⟩
     rawError (by decide) (by decide) (by decide) (by decide)
     (fun uid h => Option.noConfusion h),
   store_failures_generic.2.2.2.1 dbEmpty "alice".toList "p1".toList rawError,
   store_failures_generic.2.2.2.2.1 dbAlice "alice".toList "p1".toList rawError
     (some "Q2?".toList) ["A".toList, "B".toList] (by decide) (by decide),
   store_failures_generic.2.2.2.2.2.1 dbEmpty "p1".toList rawError none
     (by decide),
   store_failures_generic.2.2.2.2.2.2.1 [] 0 "a@b\\.cd".toList
     "abc\\d123".toList rawError (by decide) (by decide) (by decide),
   store_failures_generic.2.2.2.2.2.2.2.1 [] 0 "John".toList "a@b\\.cd".toList
     "abc\\d123".toList rawError (by decide) (by decide) (by decide) (by decide)⟩

/-- C3 counterexample: `createPoll` (on a failing insert, after passing
validation with an authenticated caller) and `getUserPolls` (on a failing
select) both return the store's raw error text verbatim, which is not one of
the fixed generic messages — raw store error text does cross the boundary. -/
theorem createPoll_returns_raw_store_error :
    (createPoll dbEmpty (some "alice".toList) none (some rawError) "n".toList
      (some "Coffee or tea?".toList) ["Coffee".toList, "Tea".toList]).1 =
      some rawError ∧
    (getUserPolls dbEmpty (some "alice".toList) (some rawError)).2 =
      some rawError ∧
    rawError ∉ genericMessages := by decide

end AlxPolling
